import Mathlib

/-!
Shallow embedding of the `@atomist/sdm-pack-web` message-to-review-comment
transformation (`src/lib/htmlValidator.ts`, final revision), the middle
revision's `infoFilter`, and the fetch goal (`fetch.ts`).

JavaScript runtime conventions are modelled explicitly:
* a field that may be `undefined` is an `Option`;
* JS truthiness of a string (`!!s`) is "present and non-empty";
* a rejected promise / thrown error is the `Except.error` branch;
* `Promise.all` over an ordered list of already-created promises resolves
  to the list of results in input order, or rejects if any member rejects.
-/

deriving instance DecidableEq for Except

/-- JS `String.prototype.endsWith`: case-sensitive suffix match, modelled
on the character lists of the strings. -/
def endsWithJs (s suffix : String) : Bool :=
  suffix.data.isSuffixOf s.data

/-- JS `s.replace(/^pre/, repl)`: rewrite the prefix `pre` of `s` to
`repl` when present, otherwise return `s` unchanged. -/
def replacePrefixJs (pre repl s : String) : String :=
  if pre.data.isPrefixOf s.data then ⟨repl.data ++ s.data.drop pre.data.length⟩ else s

/-- One html-validator response message (`hv.ValidationMessageObject`).
`type` is "info" or "error"; `subType`, `extract` and the three location
numbers may each be absent (`undefined`) at runtime. -/
structure ValidationMessage where
  type : String
  subType : Option String := none
  message : String
  extract : Option String := none
  hiliteStart : Option Int := none
  lastColumn : Option Int := none
  lastLine : Option Int := none
deriving Repr, DecidableEq

/-- Normalized source location. The numeric fields are `Option Int`
because a JS object field assigned `undefined` holds `undefined`. -/
structure SourceLocation where
  path : String
  offset : Option Int
  columnFrom1 : Option Int
  lineFrom1 : Option Int
deriving Repr, DecidableEq

/-- Output unit of the transformation. -/
structure ReviewComment where
  category : String
  detail : String
  severity : String
  sourceLocation : SourceLocation
  subcategory : String
deriving Repr, DecidableEq

/-- `hasLocation` from htmlValidator.ts: JS truthiness of `m.extract`
(`!!m.extract`), false for an absent or empty extract. -/
def hasLocation (m : ValidationMessage) : Bool :=
  match m.extract with
  | none => false
  | some s => !(s == "")

/-- `createSourceLocation` from htmlValidator.ts: start from all-zero
fields, then, when the message has a location, overwrite the three numeric
fields with the raw (possibly `undefined`) message fields. -/
def createSourceLocation (src : String) (message : ValidationMessage) : SourceLocation :=
  let sourceLocation : SourceLocation :=
    { path := src, offset := some 0, columnFrom1 := some 0, lineFrom1 := some 0 }
  if hasLocation message then
    { sourceLocation with
      columnFrom1 := message.lastColumn
      lineFrom1 := message.lastLine
      offset := message.hiliteStart }
  else
    sourceLocation

/-- `hvFilter` from htmlValidator.ts (final revision): keep warning-subtype
info messages, drop other info messages, drop literal "Parse Error."
messages, keep everything else. -/
def hvFilter (m : ValidationMessage) : Bool :=
  if m.type = "info" then
    if m.subType = some "warning" then true else false
  else if m.message = "Parse Error." then false
  else true

/-- `infoFilter` from the middle revision of the module: keep
warning-subtype info messages, drop other info messages, keep all
non-info messages. -/
def infoFilter (m : ValidationMessage) : Bool :=
  if m.type = "info" then
    if m.subType = some "warning" then true else false
  else true

/-- `Promise.all` over an ordered list of settled outcomes: the results in
input order, or a rejection if any member rejected. -/
def promiseAll {α : Type} : List (Except String α) → Except String (List α)
  | [] => .ok []
  | x :: xs =>
    match x with
    | .error e => .error e
    | .ok v =>
      match promiseAll xs with
      | .error e => .error e
      | .ok vs => .ok (v :: vs)

/-- The comment record built for one retained message (the object literal
inside `htmlValidatorMessagesToReviewComments`). -/
def hvComment (subcategory : String) (m : ValidationMessage)
    (sourceLocation : SourceLocation) : ReviewComment :=
  { category := "html-validator"
    detail := m.message
    severity := if m.subType = some "warning" then "warn" else "error"
    sourceLocation := sourceLocation
    subcategory := subcategory }

/-- The subcategory computed from the file path suffix (the `subcategory`
binding in `htmlValidatorMessagesToReviewComments`). -/
def subcategoryOf (path : String) : String :=
  if endsWithJs path ".css" then "css"
  else if endsWithJs path ".svg" then "svg"
  else "html"

/-- `noOpSiteToSource`: the identity site-to-source mapping. -/
def noOpSiteToSource {π : Type} (s : SourceLocation) (_p : π) :
    Except String SourceLocation :=
  .ok s

/-- `htmlValidatorMessagesToReviewComments` from htmlValidator.ts (final
revision). `messages` is `Option` because the argument may be `undefined`;
the site-to-source remap may reject, so the whole call may reject. The
project handle is an opaque value of type `π` passed through to the remap. -/
def htmlValidatorMessagesToReviewComments {π : Type}
    (messages : Option (List ValidationMessage)) (path : String) (project : π)
    (siteToSource : SourceLocation → π → Except String SourceLocation) :
    Except String (List ReviewComment) :=
  match messages with
  | none => .ok []
  | some ms =>
    if ms.length < 1 then .ok []
    else
      let subcategory := subcategoryOf path
      promiseAll ((ms.filter hvFilter).map (fun m =>
        (siteToSource (createSourceLocation path m) project).map
          (hvComment subcategory m)))

/-- JS `x || d` on a numeric field: `d` when the field is `undefined` or
`0` (falsy), the field's value otherwise. -/
def jsOr (x : Option Int) (d : Int) : Int :=
  match x with
  | none => d
  | some v => if v = 0 then d else v

/-- The custom site-to-source mapping of the test
"uses the provided site to source mapping" (htmlValidator.test.ts):
rewrite the `_site/` path prefix to `doc/`, multiply the offset by 10,
column becomes `(columnFrom1 || -100) + 2`, line becomes
`(lineFrom1 || -1000) - 1`. -/
def chockSiteToSource {π : Type} (i : SourceLocation) (_p : π) :
    Except String SourceLocation :=
  .ok { path := replacePrefixJs "_site/" "doc/" i.path
        offset := i.offset.map (fun v => v * 10)
        columnFrom1 := some (jsOr i.columnFrom1 (-100) + 2)
        lineFrom1 := some (jsOr i.lineFrom1 (-1000) - 1) }

/-- The three error messages of the same test. -/
def chockMessages : List ValidationMessage :=
  [ { type := "error", message := "what?", extract := some "x",
      hiliteStart := some 0, lastColumn := some 1, lastLine := some 3 },
    { type := "error", message := "huh?", extract := some "x",
      hiliteStart := some 4, lastColumn := some 5, lastLine := some 6 },
    { type := "error", message := "no?", extract := some "x",
      hiliteStart := some 9, lastColumn := some 8, lastLine := some 7 } ]

/-! Embedding of the fetch goal (`fetch.ts`). The HTTP client factory's
presence and the outcome of `httpClient.exchange` are inputs of the
embedded `executeFetch`, since they come from the host configuration and
the network. -/

/-- The part of `HttpResponse<string>` the fetch goal reads. -/
structure HttpResponse where
  status : Int
  body : String
deriving Repr, DecidableEq

/-- `FetchRegistration`: the URL and the optional verify function
(`httpClientOptions` are passed through to the client unchanged and play
no role in the result, so they are not modelled). -/
structure FetchRegistration where
  url : String
  verify : Option (HttpResponse → Except String Bool) := none

/-- `ExecuteGoalResult` as built by `fetchResult`. -/
structure ExecuteGoalResult where
  code : Int
  message : String
  externalUrls : List (String × String)
deriving Repr, DecidableEq

/-- `fetchResult` from fetch.ts: result with code, message and one
external URL whose label is the URL itself. -/
def fetchResult (code : Int) (message : String) (url : String) : ExecuteGoalResult :=
  { code := code, message := message, externalUrls := [(url, url)] }

/-- `logResult` from fetch.ts: writes the message to the logs (pure
I/O, not modelled) and returns the result unchanged. -/
def logResult (egr : ExecuteGoalResult) : ExecuteGoalResult :=
  egr

/-- `defaultFetchVerify` from fetch.ts: `status <= 200 && status < 300`. -/
def defaultFetchVerify (response : HttpResponse) : Except String Bool :=
  .ok (decide (response.status ≤ 200) && decide (response.status < 300))

/-- `executeFetch` from fetch.ts. `hasHttpFactory` models the presence of
`configuration.http.client.factory`; `exchange` models the settled outcome
of `httpClient.exchange(reg.url, reg.httpClientOptions)`; a rejecting
verify function is its `Except.error` branch. -/
def executeFetch (reg : FetchRegistration) (hasHttpFactory : Bool)
    (exchange : Except String HttpResponse) : ExecuteGoalResult :=
  if !hasHttpFactory then
    logResult (fetchResult 1 "SDM client configuration does not have an HTTP client factory" reg.url)
  else
    match exchange with
    | .error e =>
      logResult (fetchResult 1 ("Failed to fetch '" ++ reg.url ++ "': " ++ e) reg.url)
    | .ok result =>
      let verify := reg.verify.getD defaultFetchVerify
      match verify result with
      | .error e =>
        logResult (fetchResult 1
          ("Failed to execute verify function on result from '" ++ reg.url ++ "': " ++ e) reg.url)
      | .ok true =>
        logResult (fetchResult 0 ("Successfully fetched and verified '" ++ reg.url ++ "'") reg.url)
      | .ok false =>
        logResult (fetchResult 1
          ("Successfully fetched but verification failed for '" ++ reg.url ++ "'") reg.url)

/-! Concrete fixtures used by counterexamples and witnesses. -/

/-- A message whose extract is present while its hiliteStart is individually
undefined. -/
def c2Message : ValidationMessage :=
  { type := "error", message := "x", extract := some "x",
    hiliteStart := none, lastColumn := some 1, lastLine := some 2 }

/-- A non-info message whose text is the literal "Parse Error.". -/
def c9Message : ValidationMessage :=
  { type := "error", message := "Parse Error." }

/-- Concrete messages used by witnesses: a kept error message, a kept
info-with-warning message, and a dropped plain info message. -/
def testMessages : List ValidationMessage :=
  [ { type := "error", message := "what?", extract := some "x",
      hiliteStart := some 0, lastColumn := some 1, lastLine := some 3 },
    { type := "info", subType := some "warning", message := "huh?", extract := some "x",
      hiliteStart := some 8, lastColumn := some 7, lastLine := some 6 },
    { type := "info", message := "no?", extract := some "x",
      hiliteStart := some 2, lastColumn := some 2, lastLine := some 2 } ]

/-- Expected conversion of `testMessages` for path "chuck.html" under the
identity remap. -/
def testComments : List ReviewComment :=
  [ { category := "html-validator", detail := "what?", severity := "error",
      sourceLocation := { path := "chuck.html", offset := some 0,
                          columnFrom1 := some 1, lineFrom1 := some 3 },
      subcategory := "html" },
    { category := "html-validator", detail := "huh?", severity := "warn",
      sourceLocation := { path := "chuck.html", offset := some 8,
                          columnFrom1 := some 7, lineFrom1 := some 6 },
      subcategory := "html" } ]

/-- Expected conversion of `testMessages` for path "style.css" under the
identity remap. -/
def cssComments : List ReviewComment :=
  [ { category := "html-validator", detail := "what?", severity := "error",
      sourceLocation := { path := "style.css", offset := some 0,
                          columnFrom1 := some 1, lineFrom1 := some 3 },
      subcategory := "css" },
    { category := "html-validator", detail := "huh?", severity := "warn",
      sourceLocation := { path := "style.css", offset := some 8,
                          columnFrom1 := some 7, lineFrom1 := some 6 },
      subcategory := "css" } ]

/-- A fetch registration without a verify function. -/
def c10Registration : FetchRegistration :=
  { url := "https://example.com/", verify := none }

/-- A 204 No Content response. -/
def c10Response : HttpResponse :=
  { status := 204, body := "" }

/-! Helper lemmas. -/

/-- `Promise.all` over mapped outcomes resolves exactly to the pointwise
results, in input order. -/
theorem promiseAll_map_ok {α β : Type} (f : α → Except String β) :
    ∀ (xs : List α) (ys : List β),
      promiseAll (xs.map f) = .ok ys →
      List.Forall₂ (fun a b => f a = .ok b) xs ys := by
  intro xs
  induction xs with
  | nil =>
    intro ys h
    simp only [List.map_nil, promiseAll, Except.ok.injEq] at h
    subst h
    exact List.Forall₂.nil
  | cons x xs ih =>
    intro ys h
    simp only [List.map_cons, promiseAll] at h
    cases hx : f x with
    | error e => rw [hx] at h; simp at h
    | ok v =>
      rw [hx] at h
      cases hrest : promiseAll (xs.map f) with
      | error e => rw [hrest] at h; simp at h
      | ok vs =>
        rw [hrest] at h
        simp only [Except.ok.injEq] at h
        subst h
        exact List.Forall₂.cons hx (ih vs hrest)

/-- `Promise.all` over mapped outcomes rejects exactly when some member
rejects. -/
theorem promiseAll_map_error {α β : Type} (f : α → Except String β) :
    ∀ (xs : List α),
      (∃ e, promiseAll (xs.map f) = .error e) ↔ ∃ a ∈ xs, ∃ e, f a = .error e := by
  intro xs
  induction xs with
  | nil => simp [promiseAll]
  | cons x xs ih =>
    simp only [List.map_cons, promiseAll]
    cases hx : f x with
    | error e => simp [hx]
    | ok v =>
      cases hrest : promiseAll (xs.map f) with
      | error e =>
        simp only [List.mem_cons]
        constructor
        · intro _
          exact ⟨_, Or.inr (by
            have := ih.mp ⟨e, hrest⟩
            exact this.choose_spec.1), (ih.mp ⟨e, hrest⟩).choose_spec.2⟩
        · intro _; exact ⟨e, rfl⟩
      | ok vs =>
        simp only [List.mem_cons]
        constructor
        · intro ⟨e, he⟩; simp at he
        · intro ⟨a, ha, e, hae⟩
          rcases ha with rfl | ha
          · rw [hx] at hae; simp at hae
          · have := ih.mpr ⟨a, ha, e, hae⟩
            rw [hrest] at this
            simp at this

/-- An `Except.map` rejects exactly when its argument rejects. -/
theorem except_map_error_iff {α β : Type} (g : α → β) (x : Except String α) :
    (∃ e, Except.map g x = .error e) ↔ (∃ e, x = .error e) := by
  cases x <;> simp [Except.map]

/-- Every right-hand member of a `Forall₂` is related to some left-hand
member. -/
theorem forall₂_mem_right {α β : Type} {R : α → β → Prop} :
    ∀ {l₁ : List α} {l₂ : List β}, List.Forall₂ R l₁ l₂ →
      ∀ b ∈ l₂, ∃ a ∈ l₁, R a b := by
  intro l₁ l₂ h
  induction h with
  | nil => simp
  | cons hab _h ih =>
    intro b hb
    rcases List.mem_cons.mp hb with rfl | hb
    · exact ⟨_, List.mem_cons_self _ _, hab⟩
    · rcases ih b hb with ⟨a, ha, hr⟩
      exact ⟨a, List.mem_cons_of_mem _ ha, hr⟩

/-- A successful conversion relates the retained messages to the output
comments pointwise and in order. -/
theorem convert_ok_forall₂ {π : Type} (ms : List ValidationMessage) (path : String)
    (project : π) (siteToSource : SourceLocation → π → Except String SourceLocation)
    (comments : List ReviewComment)
    (h : htmlValidatorMessagesToReviewComments (some ms) path project siteToSource
      = .ok comments) :
    List.Forall₂
      (fun m c => (siteToSource (createSourceLocation path m) project).map
        (hvComment (subcategoryOf path) m) = .ok c)
      (ms.filter hvFilter) comments := by
  cases ms with
  | nil =>
    simp only [htmlValidatorMessagesToReviewComments, List.length_nil,
      Nat.zero_lt_one, if_true, Except.ok.injEq] at h
    subst h
    simp only [List.filter_nil]
    exact List.Forall₂.nil
  | cons m ms' =>
    simp only [htmlValidatorMessagesToReviewComments, List.length_cons] at h
    rw [if_neg (by omega)] at h
    exact promiseAll_map_ok _ _ _ h

/-! Claim theorems. -/

/-- C1: the classifier `hvFilter`, which `htmlValidatorMessagesToReviewComments`
uses to decide which messages survive into the output, keeps a message exactly
when either it is an info message with warning subtype, or it is a non-info
message whose text is not the literal string "Parse Error."; every other
message is filtered out. -/
theorem hvFilter_keeps_iff (m : ValidationMessage) :
    hvFilter m = true ↔
      ((m.type = "info" ∧ m.subType = some "warning") ∨
        (m.type ≠ "info" ∧ m.message ≠ "Parse Error.")) := by
  unfold hvFilter
  by_cases h1 : m.type = "info" <;> by_cases h2 : m.subType = some "warning" <;>
    by_cases h3 : m.message = "Parse Error." <;> simp [h1, h2, h3]

/-- C2 counterexample: for a message whose extract is present but whose
hiliteStart is individually undefined, `createSourceLocation` copies the
undefined value into `offset` — the normalized field is undefined, not 0,
contradicting the claim that all four fields are always defined and that an
undefined raw field normalizes to 0. -/
theorem createSourceLocation_undefined_not_zeroed :
    (createSourceLocation "a.html" c2Message).offset = none ∧
    (createSourceLocation "a.html" c2Message).offset ≠ some 0 := by decide

/-- C2 (amended): the location resolved before remapping has path equal to the
input file path; if the message's extract is absent or empty then offset,
lineFrom1 and columnFrom1 are all 0; if the extract is present and non-empty
then hiliteStart, lastColumn and lastLine are copied verbatim from the message,
so a raw field that is individually undefined leaves the corresponding
normalized field undefined rather than 0. -/
theorem createSourceLocation_fields (src : String) (m : ValidationMessage) :
    (createSourceLocation src m).path = src ∧
    createSourceLocation src m =
      (if (m.extract.getD "") == "" then
        { path := src, offset := some 0, columnFrom1 := some 0, lineFrom1 := some 0 }
      else
        { path := src, offset := m.hiliteStart, columnFrom1 := m.lastColumn,
          lineFrom1 := m.lastLine }) := by
  unfold createSourceLocation hasLocation
  cases hx : m.extract with
  | none => simp
  | some s =>
    by_cases hs : s = "" <;> simp [hs]

/-- C4: with the custom site-to-source mapping of the test (offset times 10,
path prefix `_site/` rewritten to `doc/`), converting the three error messages
with hiliteStart 0,4,9, lastColumn 1,5,8 and lastLine 3,6,7 for file path
`_site/chock.html` yields comments located at path `doc/chock.html` with
offsets 0,40,90, columns 3,7,10 and lines 2,5,6. -/
theorem convertMessages_chock_remap :
    htmlValidatorMessagesToReviewComments (π := Unit) (some chockMessages)
      "_site/chock.html" () chockSiteToSource = .ok
      [ { category := "html-validator", detail := "what?", severity := "error",
          sourceLocation := { path := "doc/chock.html", offset := some 0,
                              columnFrom1 := some 3, lineFrom1 := some 2 },
          subcategory := "html" },
        { category := "html-validator", detail := "huh?", severity := "error",
          sourceLocation := { path := "doc/chock.html", offset := some 40,
                              columnFrom1 := some 7, lineFrom1 := some 5 },
          subcategory := "html" },
        { category := "html-validator", detail := "no?", severity := "error",
          sourceLocation := { path := "doc/chock.html", offset := some 90,
                              columnFrom1 := some 10, lineFrom1 := some 6 },
          subcategory := "html" } ] := by decide

/-- C6: when the messages argument is absent (undefined) or the empty list,
`htmlValidatorMessagesToReviewComments` returns the empty list without error,
whatever the path, project and site-to-source mapping are. -/
theorem convertMessages_empty_input {π : Type} (path : String) (project : π)
    (siteToSource : SourceLocation → π → Except String SourceLocation) :
    htmlValidatorMessagesToReviewComments none path project siteToSource = .ok [] ∧
    htmlValidatorMessagesToReviewComments (some []) path project siteToSource = .ok [] :=
  ⟨rfl, rfl⟩

/-- C9: the final revision's classifier `hvFilter` and the middle revision's
classifier `infoFilter` disagree exactly on non-info messages whose text is
the literal string "Parse Error.", and on those the final revision drops the
message while the middle revision keeps it. -/
theorem hvFilter_vs_infoFilter (m : ValidationMessage) :
    ((hvFilter m ≠ infoFilter m) ↔ (m.type ≠ "info" ∧ m.message = "Parse Error.")) ∧
    (m.type ≠ "info" → m.message = "Parse Error." →
      hvFilter m = false ∧ infoFilter m = true) := by
  unfold hvFilter infoFilter
  by_cases h1 : m.type = "info" <;> by_cases h2 : m.subType = some "warning" <;>
    by_cases h3 : m.message = "Parse Error." <;> simp [h1, h2, h3]

/-- C9 witness: on the concrete error message "Parse Error." the final
revision drops and the middle revision keeps. -/
theorem hvFilter_vs_infoFilter_witness :
    hvFilter c9Message = false ∧ infoFilter c9Message = true :=
  (hvFilter_vs_infoFilter c9Message).2 (by decide) (by decide)

/-- C3: a successful conversion produces exactly one comment per retained
message, and the comments are related to the retained messages pointwise in
the input order (the i-th comment is built from the i-th retained message). -/
theorem convertMessages_one_comment_per_retained {π : Type}
    (ms : List ValidationMessage) (path : String) (project : π)
    (siteToSource : SourceLocation → π → Except String SourceLocation)
    (comments : List ReviewComment)
    (h : htmlValidatorMessagesToReviewComments (some ms) path project siteToSource
      = .ok comments) :
    comments.length = (ms.filter hvFilter).length ∧
    List.Forall₂
      (fun m c => (siteToSource (createSourceLocation path m) project).map
        (hvComment (subcategoryOf path) m) = .ok c)
      (ms.filter hvFilter) comments := by
  have h2 := convert_ok_forall₂ ms path project siteToSource comments h
  exact ⟨h2.length_eq.symm, h2⟩

/-- C3 witness: the conversion of `testMessages` keeps two messages and emits
their two comments in input order. -/
theorem convertMessages_one_comment_per_retained_witness :
    (htmlValidatorMessagesToReviewComments (π := Unit) (some testMessages) "chuck.html" ()
        noOpSiteToSource = .ok testComments) ∧
    (testComments.length = (testMessages.filter hvFilter).length ∧
      List.Forall₂
        (fun m c => (noOpSiteToSource (createSourceLocation "chuck.html" m) ()).map
          (hvComment (subcategoryOf "chuck.html") m) = .ok c)
        (testMessages.filter hvFilter) testComments) :=
  ⟨by decide, convertMessages_one_comment_per_retained testMessages "chuck.html" ()
      noOpSiteToSource testComments (by decide)⟩

/-- C5: the conversion rejects exactly when the supplied site-to-source
mapping rejects on the location of some retained message; malformed messages
never make it fail on their own, and a mapping failure is not caught inside
the pipeline. -/
theorem convertMessages_error_iff {π : Type}
    (messages : Option (List ValidationMessage)) (path : String) (project : π)
    (siteToSource : SourceLocation → π → Except String SourceLocation) :
    (∃ e, htmlValidatorMessagesToReviewComments messages path project siteToSource
      = .error e) ↔
    (∃ m ∈ (messages.getD []).filter hvFilter,
      ∃ e, siteToSource (createSourceLocation path m) project = .error e) := by
  cases messages with
  | none => simp [htmlValidatorMessagesToReviewComments]
  | some ms =>
    cases ms with
    | nil => simp [htmlValidatorMessagesToReviewComments]
    | cons m ms' =>
      simp only [htmlValidatorMessagesToReviewComments, List.length_cons, Option.getD_some]
      rw [if_neg (by omega)]
      rw [promiseAll_map_error]
      simp only [except_map_error_iff]

/-- C7: in a successful conversion the i-th comment's severity is "warn"
exactly when the i-th retained message's subType is "warning" (whatever its
type is), and "error" otherwise. -/
theorem convertMessages_severity {π : Type}
    (ms : List ValidationMessage) (path : String) (project : π)
    (siteToSource : SourceLocation → π → Except String SourceLocation)
    (comments : List ReviewComment)
    (h : htmlValidatorMessagesToReviewComments (some ms) path project siteToSource
      = .ok comments) :
    List.Forall₂
      (fun m c => c.severity = if m.subType = some "warning" then "warn" else "error")
      (ms.filter hvFilter) comments := by
  refine (convert_ok_forall₂ ms path project siteToSource comments h).imp ?_
  intro m c hmc
  cases hs : siteToSource (createSourceLocation path m) project with
  | error e => rw [hs] at hmc; simp [Except.map] at hmc
  | ok loc =>
    rw [hs] at hmc
    simp only [Except.map, Except.ok.injEq] at hmc
    subst hmc
    rfl

/-- C7 witness: the retained info message with warning subtype produces a
"warn" comment and the error message an "error" comment. -/
theorem convertMessages_severity_witness :
    (htmlValidatorMessagesToReviewComments (π := Unit) (some testMessages) "chuck.html" ()
        noOpSiteToSource = .ok testComments) ∧
    List.Forall₂
      (fun m c => c.severity = if m.subType = some "warning" then "warn" else "error")
      (testMessages.filter hvFilter) testComments :=
  ⟨by decide, convertMessages_severity testMessages "chuck.html" () noOpSiteToSource
      testComments (by decide)⟩

/-- C8: in a successful conversion every output comment's subcategory is the
case-sensitive suffix classification of the input file path: "css" for paths
ending in ".css", "svg" for paths ending in ".svg", and "html" for every
other path. -/
theorem convertMessages_subcategory {π : Type}
    (messages : Option (List ValidationMessage)) (path : String) (project : π)
    (siteToSource : SourceLocation → π → Except String SourceLocation)
    (comments : List ReviewComment)
    (h : htmlValidatorMessagesToReviewComments messages path project siteToSource
      = .ok comments) :
    ∀ c ∈ comments, c.subcategory =
      (if endsWithJs path ".css" then "css"
       else if endsWithJs path ".svg" then "svg"
       else "html") := by
  cases messages with
  | none =>
    simp only [htmlValidatorMessagesToReviewComments, Except.ok.injEq] at h
    subst h
    simp
  | some ms =>
    intro c hc
    have h2 := convert_ok_forall₂ ms path project siteToSource comments h
    obtain ⟨m, _hm, hmc⟩ := forall₂_mem_right h2 c hc
    cases hs : siteToSource (createSourceLocation path m) project with
    | error e => rw [hs] at hmc; simp [Except.map] at hmc
    | ok loc =>
      rw [hs] at hmc
      simp only [Except.map, Except.ok.injEq] at hmc
      subst hmc
      rfl

/-- C8 witness: for the path "style.css" every emitted comment carries the
subcategory "css". -/
theorem convertMessages_subcategory_witness :
    (htmlValidatorMessagesToReviewComments (π := Unit) (some testMessages) "style.css" ()
        noOpSiteToSource = .ok cssComments) ∧
    ∀ c ∈ cssComments, c.subcategory =
      (if endsWithJs "style.css" ".css" then "css"
       else if endsWithJs "style.css" ".svg" then "svg"
       else "html") :=
  ⟨by decide, convertMessages_subcategory (some testMessages) "style.css" ()
      noOpSiteToSource cssComments (by decide)⟩

/-- C10: the default verifier accepts a response exactly when its status is at
most 200 (`status <= 200 && status < 300` reduces to `status <= 200`), so when
no verify function is supplied a fetched response whose status lies in 201..299
yields the failure result with code 1 and the "verification failed" message,
not success. -/
theorem defaultFetchVerify_le_200 (r : HttpResponse) (reg : FetchRegistration)
    (hnone : reg.verify = none) (h201 : 201 ≤ r.status) (h299 : r.status ≤ 299) :
    (∀ s : HttpResponse, defaultFetchVerify s = .ok true ↔ s.status ≤ 200) ∧
    (executeFetch reg true (.ok r)).code = 1 ∧
    (executeFetch reg true (.ok r)).message =
      "Successfully fetched but verification failed for '" ++ reg.url ++ "'" := by
  have hv : defaultFetchVerify r = .ok false := by
    have hn : ¬(r.status ≤ 200) := by omega
    simp only [defaultFetchVerify, Except.ok.injEq]
    simp [hn]
  refine ⟨?_, ?_, ?_⟩
  · intro s
    simp only [defaultFetchVerify, Except.ok.injEq, Bool.and_eq_true, decide_eq_true_eq]
    omega
  · simp [executeFetch, hnone, hv, logResult, fetchResult]
  · simp [executeFetch, hnone, hv, logResult, fetchResult]

/-- C10 witness: a 204 response under the default verifier fails verification
with code 1. -/
theorem defaultFetchVerify_le_200_witness :
    (c10Registration.verify = none ∧ 201 ≤ c10Response.status ∧
      c10Response.status ≤ 299) ∧
    ((∀ s : HttpResponse, defaultFetchVerify s = .ok true ↔ s.status ≤ 200) ∧
      (executeFetch c10Registration true (.ok c10Response)).code = 1 ∧
      (executeFetch c10Registration true (.ok c10Response)).message =
        "Successfully fetched but verification failed for '" ++ c10Registration.url ++ "'") :=
  ⟨⟨rfl, by decide, by decide⟩,
    defaultFetchVerify_le_200 c10Response c10Registration rfl (by decide) (by decide)⟩
